import Mathlib

/-!
Verification of the multi-target task-queue dispatcher implemented in
`examples/multibox.py` (`BrowserInstance`, `MultiBoxManager`,
`process_queues`, `queue_task`, `create_browser`, `_focus_browser`,
`_execute_task`, `_wait_for_empty_queue`).

The Python code is shallowly embedded: the per-browser mutable state
becomes a record, the insertion-ordered `dict` of browsers becomes an
association list, and the single asyncio dispatcher coroutine
`process_queues` becomes a small-step machine whose suspension points
(the inline `await` of the focus call, of the task execution, and the
trailing `asyncio.sleep(0.1)`) are the steps of the machine.  External SDK
calls (attach, execute) are opaque to the dispatcher and are supplied
by an oracle.  `time.time()` is modelled by a logical clock that ticks
once per step.
-/

namespace Multibox

/-- Task parameters: the Python `Dict[str, Any]` of named arguments,
modelled as an association list of string keys and values. -/
abbrev Args := List (String × String)

/-- A queued task: the `(task_type, task_args)` tuple that
`queue_task` appends to `task_queue`. -/
abbrev Task := String × Args

/-- One entry of `BrowserInstance.results`.  `process_queues` appends
a dict with keys `task_type`, `task_args`, `result`, `timestamp` —
and it does so only on successful execution, so there is no failure
variant in the payload. -/
structure ResultRecord where
  task_type : String
  task_args : Args
  result : Nat
  timestamp : Nat
deriving DecidableEq, Repr

/-- The task of a result record, as the tuple it was enqueued as. -/
def ResultRecord.task (r : ResultRecord) : Task := (r.task_type, r.task_args)

/-- `BrowserInstance`: one target.  The opaque `sdk` handle carries no
dispatcher-visible state and is omitted; `window_info` keeps only the
window id used by `attach_to_window`. -/
structure BrowserInstance where
  name : String
  window_info : Option Nat
  is_busy : Bool
  last_active : Nat
  task_queue : List Task
  results : List ResultRecord
deriving DecidableEq, Repr

/-- `MultiBoxManager` state: the insertion-ordered `self.browsers`
dict (as an association list) and the `running` flag.  `api_key` and
`debug_enabled` have no dispatcher-visible behaviour. -/
structure MultiBoxManager where
  browsers : List (String × BrowserInstance)
  running : Bool
deriving DecidableEq, Repr

/-- Python `raise ValueError(msg)` as a value. -/
inductive PyError where
  | valueError (msg : String)
deriving DecidableEq, Repr

/-- Dict lookup `self.browsers[name]` / membership test
`name in self.browsers` (first matching key). -/
def lookupBrowser : List (String × BrowserInstance) → String → Option BrowserInstance
  | [], _ => none
  | (n, b) :: rest, name => if n = name then some b else lookupBrowser rest name

/-- Dict assignment `self.browsers[name] = v`: overwrites in place if
the key exists (keeping its position, as a Python dict does), else
appends at the end. -/
def dictInsert : List (String × BrowserInstance) → String → BrowserInstance → List (String × BrowserInstance)
  | [], name, v => [(name, v)]
  | (n, b) :: rest, name, v =>
      if n = name then (name, v) :: rest else (n, b) :: dictInsert rest name v

/-- In-place mutation of the browser object stored under a key (Python
mutates the object referenced by the dict entry). -/
def updateBrowser (name : String) (f : BrowserInstance → BrowserInstance) :
    List (String × BrowserInstance) → List (String × BrowserInstance)
  | [] => []
  | (n, b) :: rest =>
      if n = name then (n, f b) :: rest else (n, b) :: updateBrowser name f rest

/-- `MultiBoxManager.queue_task`: raises `ValueError` when the name is
not registered, otherwise appends `(task_type, task_args)` to the tail
of the `task_queue` of that browser. -/
def queue_task (m : MultiBoxManager) (browser_name task_type : String)
    (task_args : Args) : Except PyError MultiBoxManager :=
  match lookupBrowser m.browsers browser_name with
  | none => .error (.valueError "Browser not found")
  | some _ =>
      let bs :=
        updateBrowser browser_name
          (fun b => { b with task_queue := b.task_queue ++ [(task_type, task_args)] })
          m.browsers
      .ok { m with browsers := bs }

/-- Outcome of the external attach/window-setup phase inside the
`try` block of `create_browser`.  `windowFound w` is the successful
path that reaches `browser.window_info = target_window`;
`noWindowFound` is the internal `raise ValueError("No Safari windows
found...")` at the end of the `try`; `externalError` is any exception
raised by an awaited SDK call.  All three failure paths are caught by
the blanket `except Exception`. -/
inductive AttachPhase where
  | windowFound (w : Nat)
  | noWindowFound
  | externalError
deriving DecidableEq, Repr

/-- `MultiBoxManager.create_browser`: builds a fresh `BrowserInstance`,
stores it under `name` in `self.browsers` (overwriting any previous
entry, since Python dict assignment is unconditional), then attempts
the attach/window-setup phase.  On success the stored object gains its
`window_info` and `last_active`; every exception is caught and
swallowed, and the (possibly unattached) instance is returned either
way. -/
def create_browser (m : MultiBoxManager) (name : String) (now : Nat)
    (ph : AttachPhase) : MultiBoxManager × BrowserInstance :=
  let browser : BrowserInstance :=
    { name := name, window_info := none, is_busy := false,
      last_active := 0, task_queue := [], results := [] }
  let browser2 :=
    match ph with
    | .windowFound w => { browser with window_info := some w, last_active := now }
    | .noWindowFound => browser
    | .externalError => browser
  ({ m with browsers := dictInsert m.browsers name browser2 }, browser2)

/-- Combined outcome of `_focus_browser` followed by `_execute_task`:
either the success payload of the task, or an exception from the
focus/attach call, or an exception from the execution call. -/
inductive TaskOutcome where
  | success (payload : Nat)
  | focusFailure
  | execFailure
deriving DecidableEq, Repr

/-- The task types `_execute_task` dispatches on; any other type
raises `ValueError("Unknown task type: ...")`. -/
def isKnownTaskType (t : String) : Bool :=
  t = "execute_action" || t = "see" || t = "press_key" || t = "scroll"

/-- `_focus_browser` then `_execute_task` on one popped task.
`_focus_browser` raises `ValueError` when `window_info` is `None`
before any external call; otherwise the external SDK calls behave as
the oracle `ext` says, except that an unknown `task_type` raises
inside `_execute_task` without reaching the SDK. -/
def runFocusExec (b : BrowserInstance) (task_type : String)
    (ext : TaskOutcome) : TaskOutcome :=
  if b.window_info.isNone then .focusFailure
  else
    match ext with
    | .success v => if isKnownTaskType task_type then .success v else .execFailure
    | o => o

/-- External behaviour of one focus-and-execute: how many scheduler
steps the awaited calls stay suspended, and what they produce. -/
structure ExecSpec where
  duration : Nat
  ext : TaskOutcome
deriving DecidableEq, Repr

/-- Control state of the `process_queues` coroutine: either at the top
of the `while self.running` loop, or suspended inside the `try` block
awaiting the external capability for the task popped from the browser
at list position `idx`. -/
inductive Phase where
  | scanning
  | executing (idx : Nat) (name task_type : String) (task_args : Args)
      (left : Nat) (out : TaskOutcome)
deriving DecidableEq, Repr

/-- Full state of the dispatcher machine: manager, coroutine control
state, logical clock (one tick per step; `time.time()` reads it), and
the number of executions started so far (index into the oracle). -/
structure LoopState where
  mgr : MultiBoxManager
  phase : Phase
  clock : Nat
  execIdx : Nat
deriving DecidableEq, Repr

/-- The scan `for browser in self.browsers.values(): if not
browser.is_busy and browser.task_queue: ... break` — the position of
the first browser, in registration order, that is idle and has a
non-empty queue. -/
def scanIdx : List (String × BrowserInstance) → Option Nat
  | [] => none
  | p :: rest =>
      if p.2.is_busy = false ∧ p.2.task_queue ≠ [] then some 0
      else (scanIdx rest).map (· + 1)

/-- One step of `process_queues`.  From `scanning` with `running`
false the coroutine has exited and the state is frozen.  Otherwise a
scan either finds no candidate (the loop just sleeps its quantum) or
selects the first idle browser with work: it is marked busy, its head
task popped, and the machine enters `executing` with the outcome and
suspension length drawn from the oracle `sched`.  Each `executing`
step with time left models the coroutine staying suspended at the
inline `await` — nothing else in the manager changes.  When the await
finishes, a successful outcome appends a `ResultRecord` and updates
`last_active`; any exception is only printed; the `finally` clears
`is_busy` either way and the loop returns to scanning. -/
def loopStep (sched : Nat → ExecSpec) (s : LoopState) : LoopState :=
  match s.phase with
  | .scanning =>
      if s.mgr.running = false then s
      else
        match scanIdx s.mgr.browsers with
        | none => { s with clock := s.clock + 1 }
        | some i =>
            match s.mgr.browsers[i]? with
            | none => { s with clock := s.clock + 1 }
            | some (n, b) =>
                match b.task_queue with
                | [] => { s with clock := s.clock + 1 }
                | (tt, ta) :: rest =>
                    let spec := sched s.execIdx
                    let bs :=
                      s.mgr.browsers.set i
                        (n, { b with is_busy := true, task_queue := rest })
                    { mgr := { s.mgr with browsers := bs },
                      phase := .executing i n tt ta spec.duration
                        (runFocusExec b tt spec.ext),
                      clock := s.clock + 1,
                      execIdx := s.execIdx + 1 }
  | .executing i n tt ta (l + 1) out =>
      { s with phase := .executing i n tt ta l out, clock := s.clock + 1 }
  | .executing i n tt ta 0 out =>
      match s.mgr.browsers[i]? with
      | none => { s with phase := .scanning, clock := s.clock + 1 }
      | some (n2, b) =>
          match out with
          | .success v =>
              let b2 :=
                { b with
                  results := b.results ++ [⟨tt, ta, v, s.clock⟩],
                  last_active := s.clock,
                  is_busy := false }
              { s with
                mgr := { s.mgr with browsers := s.mgr.browsers.set i (n2, b2) },
                phase := .scanning,
                clock := s.clock + 1 }
          | _ =>
              let b2 := { b with is_busy := false }
              { s with
                mgr := { s.mgr with browsers := s.mgr.browsers.set i (n2, b2) },
                phase := .scanning,
                clock := s.clock + 1 }

/-- `n` steps of the dispatcher machine. -/
def runLoop (sched : Nat → ExecSpec) (s : LoopState) : Nat → LoopState
  | 0 => s
  | n + 1 => loopStep sched (runLoop sched s n)

/-- The state at entry of `process_queues`: it sets `self.running =
True` and starts scanning. -/
def startState (m : MultiBoxManager) : LoopState :=
  { mgr := { m with running := true }, phase := .scanning, clock := 0, execIdx := 0 }

/-- The browser at list position `j`, when in range. -/
def entryAt (s : LoopState) (j : Nat) : Option (String × BrowserInstance) :=
  s.mgr.browsers[j]?

/-- The task queue of the browser at position `j` (empty when out of
range). -/
def queueAt (s : LoopState) (j : Nat) : List Task :=
  ((s.mgr.browsers[j]?).map fun p => p.2.task_queue).getD []

/-- The result log of the browser at position `j`. -/
def resultsAt (s : LoopState) (j : Nat) : List ResultRecord :=
  ((s.mgr.browsers[j]?).map fun p => p.2.results).getD []

/-- The busy flag of the browser at position `j`. -/
def busyAt (s : LoopState) (j : Nat) : Bool :=
  ((s.mgr.browsers[j]?).map fun p => p.2.is_busy).getD false

/-- The last-active timestamp of the browser at position `j`. -/
def lastActiveAt (s : LoopState) (j : Nat) : Nat :=
  ((s.mgr.browsers[j]?).map fun p => p.2.last_active).getD 0

/-- Result of waiting for a target to drain under a deadline. -/
inductive DrainResult where
  | drained
  | timedOut
deriving DecidableEq, Repr

/-- `_wait_for_empty_queue` composed with the `asyncio.wait_for`
deadline from `main`: the waiter polls `len(browser.task_queue) > 0 or
browser.is_busy` and sleeps between polls; the surrounding deadline
cancels it after a fixed budget of polls.  `obs j` is the `(queue
length, busy flag)` pair the `j`-th poll observes; `fuel` is how many
further polls the deadline still allows. -/
def waitUntilDrained (obs : Nat → Nat × Bool) : Nat → Nat → DrainResult
  | i, 0 =>
      if (obs i).1 = 0 ∧ (obs i).2 = false then .drained else .timedOut
  | i, fuel + 1 =>
      if (obs i).1 = 0 ∧ (obs i).2 = false then .drained
      else waitUntilDrained obs (i + 1) fuel

open List


/-- Busy-flag invariant of the dispatcher machine: while the loop is
scanning no browser is busy, and while one execution is in flight
exactly the selected browser is busy. -/
def BusyInv (s : LoopState) : Prop :=
  (s.phase = Phase.scanning →
     ∀ (j : Nat) (p : String × BrowserInstance),
       s.mgr.browsers[j]? = some p → p.2.is_busy = false) ∧
  (∀ (i : Nat) (n tt : String) (ta : Args) (l : Nat) (out : TaskOutcome),
     s.phase = Phase.executing i n tt ta l out →
     i < s.mgr.browsers.length ∧
     ∀ (j : Nat) (p : String × BrowserInstance),
       s.mgr.browsers[j]? = some p → (p.2.is_busy = true ↔ j = i))

/-- The task currently in flight, attributed to the browser position
it was popped from (empty for every other position). -/
def inflightAt (j : Nat) : Phase → List Task
  | .scanning => []
  | .executing i _ tt ta _ _ => if i = j then [(tt, ta)] else []

/-- FIFO invariant for the browser at position `j`: the tasks already
consumed (`done`), the task in flight (if popped from `j`) and the
pending queue always concatenate to the originally enqueued sequence
`Q`, and the recorded results are an order-preserving selection of the
consumed tasks. -/
def FifoInv (Q : List Task) (j : Nat) (s : LoopState) : Prop :=
  ∀ p : String × BrowserInstance, s.mgr.browsers[j]? = some p →
    ∃ done, done ++ (inflightAt j s.phase ++ p.2.task_queue) = Q ∧
      p.2.results.map ResultRecord.task <+ done

/-- A `see` task with empty arguments, used in the concrete scenarios. -/
def taskSee : Task := ("see", [])

/-- An attached, idle browser with the given queue, as `create_browser`
plus `queue_task` would produce it on the happy path. -/
def demoBrowser (nm : String) (q : List Task) : BrowserInstance :=
  { name := nm, window_info := some 0, is_busy := false, last_active := 0,
    task_queue := q, results := [] }

/-- Scenario for C1: one target with two queued tasks; the first
execution raises, the second succeeds. -/
def mgrC1 : MultiBoxManager :=
  { browsers := [("a", demoBrowser "a" [taskSee, taskSee])], running := true }

/-- Oracle for C1: execution 0 fails inside `_execute_task`, all later
executions succeed immediately. -/
def schedC1 : Nat → ExecSpec := fun idx =>
  if idx = 0 then { duration := 0, ext := .execFailure }
  else { duration := 0, ext := .success 5 }

/-- Scenario for C2 (the spec scenario of section 8): target `A`
registered first with three tasks, target `B` with one. -/
def mgrC2 : MultiBoxManager :=
  { browsers := [("A", demoBrowser "A" [taskSee, taskSee, taskSee]),
                 ("B", demoBrowser "B" [taskSee])], running := true }

/-- Oracle for C2: the second task of `A` stalls for five scheduler
steps awaiting the external capability; every other task returns at
once. -/
def schedC2 : Nat → ExecSpec := fun idx =>
  if idx = 1 then { duration := 5, ext := .success 11 }
  else { duration := 0, ext := .success (10 + idx) }

/-- The previously registered instance for C6: it has done work (one
result record, a nonzero last-active stamp). -/
def bOldC6 : BrowserInstance :=
  { name := "a", window_info := some 3, is_busy := false, last_active := 7,
    task_queue := [], results := [⟨"see", [], 9, 4⟩] }

/-- Manager for C6 with `a` already registered. -/
def mgrC6 : MultiBoxManager :=
  { browsers := [("a", bOldC6)], running := false }

/-- Scenario for C8: one target with two queued tasks, both succeeding
immediately. -/
def mgrC8 : MultiBoxManager :=
  { browsers := [("a", demoBrowser "a" [taskSee, taskSee])], running := true }

/-- Oracle for C8: every execution succeeds at once. -/
def schedC8 : Nat → ExecSpec := fun _ => { duration := 0, ext := .success 5 }

/-- Browser for the C1 witness: mid-flight, busy, one task left. -/
def bC1 : BrowserInstance :=
  { demoBrowser "a" [taskSee] with is_busy := true }

/-- Mid-flight state for the C1 witness: the head task of `a` has been
popped and its execution has just failed. -/
def stateC1 : LoopState :=
  { mgr := { browsers := [("a", bC1)], running := true },
    phase := Phase.executing 0 "a" "see" [] 0 TaskOutcome.execFailure,
    clock := 2, execIdx := 1 }

/-- Browser for the C8 witness: mid-flight, busy, empty queue. -/
def bC8 : BrowserInstance :=
  { demoBrowser "a" [] with is_busy := true }

/-- Mid-flight state for the C8 witness: the execution is about to
complete successfully. -/
def stateC8 : LoopState :=
  { mgr := { browsers := [("a", bC8)], running := true },
    phase := Phase.executing 0 "a" "see" [] 0 (TaskOutcome.success 5),
    clock := 1, execIdx := 1 }

/-- A registered target with an empty queue, for the idle-scan witness. -/
def mgrIdle : MultiBoxManager :=
  { browsers := [("a", demoBrowser "a" [])], running := true }

theorem lookupBrowser_dictInsert_self (l : List (String × BrowserInstance))
    (name : String) (v : BrowserInstance) :
    lookupBrowser (dictInsert l name v) name = some v := by
  induction l with
  | nil => simp [dictInsert, lookupBrowser]
  | cons p rest ih =>
      obtain ⟨n, b⟩ := p
      by_cases h : n = name
      · subst h
        simp [dictInsert, lookupBrowser]
      · simp [dictInsert, lookupBrowser, h, ih]

theorem dictInsert_map_fst (l : List (String × BrowserInstance))
    (name : String) (v bOld : BrowserInstance)
    (h : lookupBrowser l name = some bOld) :
    (dictInsert l name v).map Prod.fst = l.map Prod.fst := by
  induction l with
  | nil => simp [lookupBrowser] at h
  | cons p rest ih =>
      obtain ⟨n, b⟩ := p
      by_cases hn : n = name
      · subst hn
        simp [dictInsert]
      · simp only [lookupBrowser, if_neg hn] at h
        simp [dictInsert, hn, ih h]

theorem lookupBrowser_updateBrowser_self (l : List (String × BrowserInstance))
    (name : String) (f : BrowserInstance → BrowserInstance) :
    lookupBrowser (updateBrowser name f l) name = (lookupBrowser l name).map f := by
  induction l with
  | nil => simp [updateBrowser, lookupBrowser]
  | cons p rest ih =>
      obtain ⟨n, b⟩ := p
      by_cases h : n = name
      · subst h
        simp [updateBrowser, lookupBrowser]
      · simp [updateBrowser, lookupBrowser, h, ih]

theorem lookupBrowser_updateBrowser_ne (l : List (String × BrowserInstance))
    (name o : String) (f : BrowserInstance → BrowserInstance) (h : o ≠ name) :
    lookupBrowser (updateBrowser name f l) o = lookupBrowser l o := by
  induction l with
  | nil => simp [updateBrowser]
  | cons p rest ih =>
      obtain ⟨n, b⟩ := p
      by_cases hn : n = name
      · have hno : ¬ name = o := fun hc => h hc.symm
        simp [updateBrowser, lookupBrowser, hn, hno]
      · by_cases ho : n = o
        · subst ho
          simp [updateBrowser, lookupBrowser, hn]
        · simp [updateBrowser, lookupBrowser, hn, ho, ih]

theorem updateBrowser_map_fst (l : List (String × BrowserInstance))
    (name : String) (f : BrowserInstance → BrowserInstance) :
    (updateBrowser name f l).map Prod.fst = l.map Prod.fst := by
  induction l with
  | nil => simp [updateBrowser]
  | cons p rest ih =>
      obtain ⟨n, b⟩ := p
      by_cases h : n = name
      · subst h
        simp [updateBrowser]
      · simp [updateBrowser, h, ih]

theorem scanIdx_some (l : List (String × BrowserInstance)) (i : Nat)
    (h : scanIdx l = some i) :
    ∃ p, l[i]? = some p ∧ p.2.is_busy = false ∧ p.2.task_queue ≠ [] ∧
      ∀ j, j < i → ∀ q, l[j]? = some q →
        (q.2.is_busy = true ∨ q.2.task_queue = []) := by
  induction l generalizing i with
  | nil => simp [scanIdx] at h
  | cons p rest ih =>
      by_cases hp : p.2.is_busy = false ∧ p.2.task_queue ≠ []
      · simp only [scanIdx, if_pos hp, Option.some.injEq] at h
        subst h
        exact ⟨p, by simp, hp.1, hp.2, fun j hj => absurd hj (Nat.not_lt_zero j)⟩
      · simp only [scanIdx, if_neg hp] at h
        cases hsr : scanIdx rest with
        | none => rw [hsr] at h; simp at h
        | some i2 =>
            rw [hsr] at h
            simp at h
            subst h
            obtain ⟨q, hq, h1, h2, h3⟩ := ih i2 hsr
            refine ⟨q, by simpa using hq, h1, h2, ?_⟩
            intro j hj r hr
            cases j with
            | zero =>
                simp only [List.getElem?_cons_zero, Option.some.injEq] at hr
                subst hr
                cases hb : p.2.is_busy with
                | true => exact Or.inl rfl
                | false =>
                    right
                    by_contra hq2
                    exact hp ⟨hb, hq2⟩
            | succ j2 =>
                simp only [List.getElem?_cons_succ] at hr
                exact h3 j2 (Nat.lt_of_succ_lt_succ hj) r hr

theorem scanIdx_none_iff (l : List (String × BrowserInstance)) :
    scanIdx l = none ↔
      ∀ p ∈ l, (p.2.is_busy = true ∨ p.2.task_queue = []) := by
  induction l with
  | nil => simp [scanIdx]
  | cons p rest ih =>
      by_cases hp : p.2.is_busy = false ∧ p.2.task_queue ≠ []
      · simp only [scanIdx, if_pos hp]
        constructor
        · intro h; simp at h
        · intro h
          rcases h p (List.mem_cons_self p rest) with h1 | h2
          · exact absurd h1 (by simp [hp.1])
          · exact absurd h2 hp.2
      · simp only [scanIdx, if_neg hp, List.forall_mem_cons]
        have hp2 : p.2.is_busy = true ∨ p.2.task_queue = [] := by
          cases hb : p.2.is_busy with
          | true => exact Or.inl rfl
          | false =>
              right
              by_contra hq2
              exact hp ⟨hb, hq2⟩
        simp [Option.map_eq_none, ih, hp2]

theorem loopStep_halted (sched : Nat → ExecSpec) (s : LoopState)
    (h1 : s.phase = .scanning) (h2 : s.mgr.running = false) :
    loopStep sched s = s := by
  unfold loopStep
  rw [h1]
  simp [h2]

theorem loopStep_idle (sched : Nat → ExecSpec) (s : LoopState)
    (h1 : s.phase = .scanning) (h2 : s.mgr.running = true)
    (h3 : scanIdx s.mgr.browsers = none) :
    loopStep sched s = { s with clock := s.clock + 1 } := by
  unfold loopStep
  rw [h1]
  simp [h2, h3]

theorem loopStep_select (sched : Nat → ExecSpec) (s : LoopState) (i : Nat)
    (n : String) (b : BrowserInstance) (tt : String) (ta : Args) (rest : List Task)
    (h1 : s.phase = .scanning) (h2 : s.mgr.running = true)
    (h3 : scanIdx s.mgr.browsers = some i)
    (h4 : s.mgr.browsers[i]? = some (n, b))
    (h5 : b.task_queue = (tt, ta) :: rest) :
    (loopStep sched s).mgr.browsers =
      s.mgr.browsers.set i (n, { b with is_busy := true, task_queue := rest }) ∧
    (loopStep sched s).mgr.running = s.mgr.running ∧
    (loopStep sched s).phase =
      Phase.executing i n tt ta (sched s.execIdx).duration
        (runFocusExec b tt (sched s.execIdx).ext) ∧
    (loopStep sched s).clock = s.clock + 1 ∧
    (loopStep sched s).execIdx = s.execIdx + 1 := by
  unfold loopStep
  rw [h1]
  simp [h2, h3, h4, h5]

theorem loopStep_tick (sched : Nat → ExecSpec) (s : LoopState) (i : Nat)
    (n tt : String) (ta : Args) (l : Nat) (out : TaskOutcome)
    (h1 : s.phase = .executing i n tt ta (l + 1) out) :
    loopStep sched s =
      { s with phase := .executing i n tt ta l out, clock := s.clock + 1 } := by
  unfold loopStep
  rw [h1]

theorem loopStep_finish_success (sched : Nat → ExecSpec) (s : LoopState) (i : Nat)
    (n tt : String) (ta : Args) (v : Nat) (n2 : String) (b : BrowserInstance)
    (h1 : s.phase = .executing i n tt ta 0 (.success v))
    (h4 : s.mgr.browsers[i]? = some (n2, b)) :
    (loopStep sched s).mgr.browsers =
      s.mgr.browsers.set i
        (n2,
         { b with
           results := b.results ++ [⟨tt, ta, v, s.clock⟩],
           last_active := s.clock,
           is_busy := false }) ∧
    (loopStep sched s).mgr.running = s.mgr.running ∧
    (loopStep sched s).phase = Phase.scanning ∧
    (loopStep sched s).clock = s.clock + 1 ∧
    (loopStep sched s).execIdx = s.execIdx := by
  unfold loopStep
  rw [h1]
  simp [h4]

theorem loopStep_finish_failure (sched : Nat → ExecSpec) (s : LoopState) (i : Nat)
    (n tt : String) (ta : Args) (out : TaskOutcome) (n2 : String) (b : BrowserInstance)
    (h1 : s.phase = .executing i n tt ta 0 out)
    (hout : out = .focusFailure ∨ out = .execFailure)
    (h4 : s.mgr.browsers[i]? = some (n2, b)) :
    (loopStep sched s).mgr.browsers =
      s.mgr.browsers.set i (n2, { b with is_busy := false }) ∧
    (loopStep sched s).mgr.running = s.mgr.running ∧
    (loopStep sched s).phase = Phase.scanning ∧
    (loopStep sched s).clock = s.clock + 1 ∧
    (loopStep sched s).execIdx = s.execIdx := by
  rcases hout with h | h <;>
    (subst h; unfold loopStep; rw [h1]; simp [h4])

theorem loopStep_exec_none (sched : Nat → ExecSpec) (s : LoopState) (i : Nat)
    (n tt : String) (ta : Args) (out : TaskOutcome)
    (h1 : s.phase = .executing i n tt ta 0 out)
    (h4 : s.mgr.browsers[i]? = none) :
    loopStep sched s = { s with phase := .scanning, clock := s.clock + 1 } := by
  unfold loopStep
  rw [h1]
  simp [h4]

theorem getElem?_lt {α : Type} (l : List α) (i : Nat) (a : α)
    (h : l[i]? = some a) : i < l.length :=
  (List.getElem?_eq_some.mp h).1

theorem length_loopStep (sched : Nat → ExecSpec) (s : LoopState) :
    (loopStep sched s).mgr.browsers.length = s.mgr.browsers.length := by
  cases hph : s.phase with
  | scanning =>
      cases hr : s.mgr.running with
      | false => rw [loopStep_halted sched s hph hr]
      | true =>
          cases hsi : scanIdx s.mgr.browsers with
          | none => rw [loopStep_idle sched s hph hr hsi]
          | some i =>
              obtain ⟨p, hp, hbusy, hqne, hfirst⟩ := scanIdx_some _ _ hsi
              obtain ⟨n, b⟩ := p
              cases hq2 : b.task_queue with
              | nil => exact absurd hq2 hqne
              | cons t rest =>
                  obtain ⟨tt, ta⟩ := t
                  obtain ⟨hbs, _, _, _, _⟩ :=
                    loopStep_select sched s i n b tt ta rest hph hr hsi hp hq2
                  rw [hbs, List.length_set]
  | executing i n tt ta l out =>
      cases l with
      | zero =>
          cases h4 : s.mgr.browsers[i]? with
          | none => rw [loopStep_exec_none sched s i n tt ta out hph h4]
          | some p =>
              obtain ⟨n2, b⟩ := p
              cases out with
              | success v =>
                  obtain ⟨hbs, _, _, _, _⟩ :=
                    loopStep_finish_success sched s i n tt ta v n2 b hph h4
                  rw [hbs, List.length_set]
              | focusFailure =>
                  obtain ⟨hbs, _, _, _, _⟩ :=
                    loopStep_finish_failure sched s i n tt ta _ n2 b hph (Or.inl rfl) h4
                  rw [hbs, List.length_set]
              | execFailure =>
                  obtain ⟨hbs, _, _, _, _⟩ :=
                    loopStep_finish_failure sched s i n tt ta _ n2 b hph (Or.inr rfl) h4
                  rw [hbs, List.length_set]
      | succ l2 => rw [loopStep_tick sched s i n tt ta l2 out hph]

theorem queueAt_loopStep_suffix (sched : Nat → ExecSpec) (s : LoopState) (j : Nat) :
    queueAt (loopStep sched s) j <:+ queueAt s j := by
  cases hph : s.phase with
  | scanning =>
      cases hr : s.mgr.running with
      | false =>
          rw [loopStep_halted sched s hph hr]
      | true =>
          cases hsi : scanIdx s.mgr.browsers with
          | none =>
              rw [loopStep_idle sched s hph hr hsi]
              exact List.suffix_refl _
          | some i =>
              obtain ⟨p, hp, hbusy, hqne, hfirst⟩ := scanIdx_some _ _ hsi
              obtain ⟨n, b⟩ := p
              cases hq2 : b.task_queue with
              | nil => exact absurd hq2 hqne
              | cons t rest =>
                  obtain ⟨tt, ta⟩ := t
                  obtain ⟨hbs, _, _, _, _⟩ :=
                    loopStep_select sched s i n b tt ta rest hph hr hsi hp hq2
                  by_cases hij : j = i
                  · subst hij
                    have hlt : j < s.mgr.browsers.length := getElem?_lt _ _ _ hp
                    simp only [queueAt, hbs, List.getElem?_set_self hlt, hp,
                      Option.map_some', Option.getD_some, hq2]
                    exact List.suffix_cons (tt, ta) rest
                  · simp only [queueAt, hbs, List.getElem?_set_ne (Ne.symm hij)]
                    exact List.suffix_refl _
  | executing i n tt ta l out =>
      cases l with
      | zero =>
          cases h4 : s.mgr.browsers[i]? with
          | none =>
              rw [loopStep_exec_none sched s i n tt ta out hph h4]
              exact List.suffix_refl _
          | some p =>
              obtain ⟨n2, b⟩ := p
              cases out with
              | success v =>
                  obtain ⟨hbs, _, _, _, _⟩ :=
                    loopStep_finish_success sched s i n tt ta v n2 b hph h4
                  by_cases hij : j = i
                  · subst hij
                    have hlt : j < s.mgr.browsers.length := getElem?_lt _ _ _ h4
                    simp only [queueAt, hbs, List.getElem?_set_self hlt, h4,
                      Option.map_some', Option.getD_some]
                    exact List.suffix_refl _
                  · simp only [queueAt, hbs, List.getElem?_set_ne (Ne.symm hij)]
                    exact List.suffix_refl _
              | focusFailure =>
                  obtain ⟨hbs, _, _, _, _⟩ :=
                    loopStep_finish_failure sched s i n tt ta _ n2 b hph (Or.inl rfl) h4
                  by_cases hij : j = i
                  · subst hij
                    have hlt : j < s.mgr.browsers.length := getElem?_lt _ _ _ h4
                    simp only [queueAt, hbs, List.getElem?_set_self hlt, h4,
                      Option.map_some', Option.getD_some]
                    exact List.suffix_refl _
                  · simp only [queueAt, hbs, List.getElem?_set_ne (Ne.symm hij)]
                    exact List.suffix_refl _
              | execFailure =>
                  obtain ⟨hbs, _, _, _, _⟩ :=
                    loopStep_finish_failure sched s i n tt ta _ n2 b hph (Or.inr rfl) h4
                  by_cases hij : j = i
                  · subst hij
                    have hlt : j < s.mgr.browsers.length := getElem?_lt _ _ _ h4
                    simp only [queueAt, hbs, List.getElem?_set_self hlt, h4,
                      Option.map_some', Option.getD_some]
                    exact List.suffix_refl _
                  · simp only [queueAt, hbs, List.getElem?_set_ne (Ne.symm hij)]
                    exact List.suffix_refl _
      | succ l2 =>
          rw [loopStep_tick sched s i n tt ta l2 out hph]
          exact List.suffix_refl _

theorem busyInv_loopStep (sched : Nat → ExecSpec) (s : LoopState)
    (h : BusyInv s) : BusyInv (loopStep sched s) := by
  unfold BusyInv at h ⊢
  obtain ⟨hscan, hexec⟩ := h
  cases hph : s.phase with
  | scanning =>
      cases hr : s.mgr.running with
      | false =>
          rw [loopStep_halted sched s hph hr]
          exact ⟨hscan, hexec⟩
      | true =>
          cases hsi : scanIdx s.mgr.browsers with
          | none =>
              rw [loopStep_idle sched s hph hr hsi]
              refine ⟨fun _ j p hp => hscan hph j p hp, fun i n tt ta l out hex => ?_⟩
              exact absurd (hph.symm.trans hex) (fun hc => Phase.noConfusion hc)
          | some i =>
              obtain ⟨p, hp, hbusy, hqne, hfirst⟩ := scanIdx_some _ _ hsi
              obtain ⟨n, b⟩ := p
              cases hq2 : b.task_queue with
              | nil => exact absurd hq2 hqne
              | cons t rest =>
                  obtain ⟨tt, ta⟩ := t
                  obtain ⟨hbs, hrun, hph2, hclk, hexe⟩ :=
                    loopStep_select sched s i n b tt ta rest hph hr hsi hp hq2
                  have hlt : i < s.mgr.browsers.length := getElem?_lt _ _ _ hp
                  constructor
                  · intro hex
                    exact absurd (hph2.symm.trans hex) (fun hc => Phase.noConfusion hc)
                  · intro i2 n2 tt2 ta2 l2 out2 hex
                    have heq := hph2.symm.trans hex
                    injection heq with e1 e2 e3 e4 e5 e6
                    subst e1
                    constructor
                    · rw [hbs, List.length_set]
                      exact hlt
                    · intro j q hq
                      rw [hbs] at hq
                      by_cases hij : j = i
                      · subst hij
                        rw [List.getElem?_set_self hlt] at hq
                        cases hq
                        simp
                      · rw [List.getElem?_set_ne (Ne.symm hij)] at hq
                        have hqb := hscan hph j q hq
                        simp [hqb, hij]
  | executing i n tt ta l out =>
      cases l with
      | zero =>
          cases h4 : s.mgr.browsers[i]? with
          | none =>
              have hlt := (hexec i n tt ta 0 out hph).1
              rw [List.getElem?_eq_getElem hlt] at h4
              cases h4
          | some p =>
              obtain ⟨n2, b⟩ := p
              have hlt : i < s.mgr.browsers.length := getElem?_lt _ _ _ h4
              have hiff := (hexec i n tt ta 0 out hph).2
              cases out with
              | success v =>
                  obtain ⟨hbs, hrun, hph2, hclk, hexe⟩ :=
                    loopStep_finish_success sched s i n tt ta v n2 b hph h4
                  constructor
                  · intro _ j q hq
                    rw [hbs] at hq
                    by_cases hij : j = i
                    · subst hij
                      rw [List.getElem?_set_self hlt] at hq
                      cases hq
                      rfl
                    · rw [List.getElem?_set_ne (Ne.symm hij)] at hq
                      have hb2 := hiff j q hq
                      cases hb : q.2.is_busy with
                      | false => rfl
                      | true => exact absurd (hb2.mp hb) hij
                  · intro i2 n3 tt2 ta2 l2 out2 hex
                    exact absurd (hph2.symm.trans hex) (fun hc => Phase.noConfusion hc)
              | focusFailure =>
                  obtain ⟨hbs, hrun, hph2, hclk, hexe⟩ :=
                    loopStep_finish_failure sched s i n tt ta _ n2 b hph (Or.inl rfl) h4
                  constructor
                  · intro _ j q hq
                    rw [hbs] at hq
                    by_cases hij : j = i
                    · subst hij
                      rw [List.getElem?_set_self hlt] at hq
                      cases hq
                      rfl
                    · rw [List.getElem?_set_ne (Ne.symm hij)] at hq
                      have hb2 := hiff j q hq
                      cases hb : q.2.is_busy with
                      | false => rfl
                      | true => exact absurd (hb2.mp hb) hij
                  · intro i2 n3 tt2 ta2 l2 out2 hex
                    exact absurd (hph2.symm.trans hex) (fun hc => Phase.noConfusion hc)
              | execFailure =>
                  obtain ⟨hbs, hrun, hph2, hclk, hexe⟩ :=
                    loopStep_finish_failure sched s i n tt ta _ n2 b hph (Or.inr rfl) h4
                  constructor
                  · intro _ j q hq
                    rw [hbs] at hq
                    by_cases hij : j = i
                    · subst hij
                      rw [List.getElem?_set_self hlt] at hq
                      cases hq
                      rfl
                    · rw [List.getElem?_set_ne (Ne.symm hij)] at hq
                      have hb2 := hiff j q hq
                      cases hb : q.2.is_busy with
                      | false => rfl
                      | true => exact absurd (hb2.mp hb) hij
                  · intro i2 n3 tt2 ta2 l2 out2 hex
                    exact absurd (hph2.symm.trans hex) (fun hc => Phase.noConfusion hc)
      | succ l2 =>
          rw [loopStep_tick sched s i n tt ta l2 out hph]
          constructor
          · intro hex
            exact absurd hex (fun hc => Phase.noConfusion hc)
          · intro i2 n2 tt2 ta2 l3 out2 hex
            injection hex with e1 e2 e3 e4 e5 e6
            subst e1
            exact ⟨(hexec i n tt ta (l2 + 1) out hph).1,
                   (hexec i n tt ta (l2 + 1) out hph).2⟩

theorem busyInv_runLoop (sched : Nat → ExecSpec) (s : LoopState) (k : Nat)
    (h : BusyInv s) : BusyInv (runLoop sched s k) := by
  induction k with
  | zero => exact h
  | succ k2 ih => exact busyInv_loopStep sched (runLoop sched s k2) ih

theorem fifoInv_loopStep (sched : Nat → ExecSpec) (s : LoopState)
    (Q : List Task) (j : Nat) (h : FifoInv Q j s) :
    FifoInv Q j (loopStep sched s) := by
  unfold FifoInv at h ⊢
  cases hph : s.phase with
  | scanning =>
      cases hr : s.mgr.running with
      | false =>
          rw [loopStep_halted sched s hph hr]
          exact h
      | true =>
          cases hsi : scanIdx s.mgr.browsers with
          | none =>
              rw [loopStep_idle sched s hph hr hsi]
              exact h
          | some i =>
              obtain ⟨p, hp, hbusy, hqne, hfirst⟩ := scanIdx_some _ _ hsi
              obtain ⟨n, b⟩ := p
              cases hq2 : b.task_queue with
              | nil => exact absurd hq2 hqne
              | cons t rest =>
                  obtain ⟨tt, ta⟩ := t
                  obtain ⟨hbs, hrun, hph2, hclk, hexe⟩ :=
                    loopStep_select sched s i n b tt ta rest hph hr hsi hp hq2
                  have hlt : i < s.mgr.browsers.length := getElem?_lt _ _ _ hp
                  intro q hq
                  rw [hbs] at hq
                  rw [hph2]
                  by_cases hij : i = j
                  · subst hij
                    rw [List.getElem?_set_self hlt] at hq
                    cases hq
                    obtain ⟨done, hQ, hsub⟩ := h (n, b) hp
                    rw [hph] at hQ
                    simp only [inflightAt, if_pos rfl]
                    refine ⟨done, ?_, hsub⟩
                    simp only [inflightAt] at hQ
                    rw [← hQ, hq2]
                    simp
                  · rw [List.getElem?_set_ne hij] at hq
                    obtain ⟨done, hQ, hsub⟩ := h q hq
                    rw [hph] at hQ
                    simp only [inflightAt, if_neg hij]
                    simp only [inflightAt] at hQ
                    exact ⟨done, hQ, hsub⟩
  | executing i n tt ta l out =>
      cases l with
      | zero =>
          cases h4 : s.mgr.browsers[i]? with
          | none =>
              rw [loopStep_exec_none sched s i n tt ta out hph h4]
              intro q hq
              obtain ⟨done, hQ, hsub⟩ := h q hq
              rw [hph] at hQ
              by_cases hij : i = j
              · subst hij
                rw [hq] at h4
                cases h4
              · simp only [inflightAt, if_neg hij] at hQ
                simp only [inflightAt]
                exact ⟨done, hQ, hsub⟩
          | some p =>
              obtain ⟨n2, b⟩ := p
              have hlt : i < s.mgr.browsers.length := getElem?_lt _ _ _ h4
              have hfin : ∀ (b2 : BrowserInstance),
                  b2.task_queue = b.task_queue →
                  b2.results.map ResultRecord.task =
                    b.results.map ResultRecord.task ∨
                  b2.results.map ResultRecord.task =
                    b.results.map ResultRecord.task ++ [(tt, ta)] →
                  (loopStep sched s).mgr.browsers =
                    s.mgr.browsers.set i (n2, b2) →
                  (loopStep sched s).phase = Phase.scanning →
                  ∀ q : String × BrowserInstance,
                    (loopStep sched s).mgr.browsers[j]? = some q →
                    ∃ done,
                      done ++ (inflightAt j (loopStep sched s).phase ++ q.2.task_queue) = Q ∧
                      q.2.results.map ResultRecord.task <+ done := by
                intro b2 hq2 hres hbs hph2 q hq
                rw [hbs] at hq
                rw [hph2]
                by_cases hij : i = j
                · subst hij
                  rw [List.getElem?_set_self hlt] at hq
                  cases hq
                  obtain ⟨done, hQ, hsub⟩ := h (n2, b) h4
                  rw [hph] at hQ
                  simp only [inflightAt, if_pos rfl] at hQ
                  simp only [inflightAt]
                  refine ⟨done ++ [(tt, ta)], ?_, ?_⟩
                  · rw [← hQ, hq2]
                    simp
                  · rcases hres with hres | hres
                    · rw [hres]
                      exact hsub.trans (List.sublist_append_left done [(tt, ta)])
                    · rw [hres]
                      exact List.Sublist.append hsub (List.Sublist.refl [(tt, ta)])
                · rw [List.getElem?_set_ne hij] at hq
                  obtain ⟨done, hQ, hsub⟩ := h q hq
                  rw [hph] at hQ
                  simp only [inflightAt, if_neg hij] at hQ
                  simp only [inflightAt]
                  exact ⟨done, hQ, hsub⟩
              cases out with
              | success v =>
                  obtain ⟨hbs, hrun, hph2, hclk, hexe⟩ :=
                    loopStep_finish_success sched s i n tt ta v n2 b hph h4
                  refine hfin
                    { b with
                      results := b.results ++ [⟨tt, ta, v, s.clock⟩],
                      last_active := s.clock,
                      is_busy := false }
                    rfl (Or.inr ?_) hbs hph2
                  simp [ResultRecord.task]
              | focusFailure =>
                  obtain ⟨hbs, hrun, hph2, hclk, hexe⟩ :=
                    loopStep_finish_failure sched s i n tt ta _ n2 b hph (Or.inl rfl) h4
                  exact hfin { b with is_busy := false } rfl (Or.inl rfl) hbs hph2
              | execFailure =>
                  obtain ⟨hbs, hrun, hph2, hclk, hexe⟩ :=
                    loopStep_finish_failure sched s i n tt ta _ n2 b hph (Or.inr rfl) h4
                  exact hfin { b with is_busy := false } rfl (Or.inl rfl) hbs hph2
      | succ l2 =>
          rw [loopStep_tick sched s i n tt ta l2 out hph]
          intro q hq
          obtain ⟨done, hQ, hsub⟩ := h q hq
          rw [hph] at hQ
          exact ⟨done, hQ, hsub⟩

theorem fifoInv_runLoop (sched : Nat → ExecSpec) (s : LoopState)
    (Q : List Task) (j : Nat) (k : Nat) (h : FifoInv Q j s) :
    FifoInv Q j (runLoop sched s k) := by
  induction k with
  | zero => exact h
  | succ k2 ih => exact fifoInv_loopStep sched (runLoop sched s k2) Q j ih

theorem waitUntilDrained_drained_iff (obs : Nat → Nat × Bool) (i fuel : Nat) :
    waitUntilDrained obs i fuel = DrainResult.drained ↔
      ∃ j, i ≤ j ∧ j ≤ i + fuel ∧ (obs j).1 = 0 ∧ (obs j).2 = false := by
  induction fuel generalizing i with
  | zero =>
      by_cases hd : (obs i).1 = 0 ∧ (obs i).2 = false
      · simp only [waitUntilDrained, if_pos hd]
        constructor
        · intro _
          exact ⟨i, Nat.le_refl i, by omega, hd.1, hd.2⟩
        · intro _
          trivial
      · simp only [waitUntilDrained, if_neg hd]
        constructor
        · intro hcon
          cases hcon
        · rintro ⟨j, h1, h2, h3, h4⟩
          have hji : j = i := by omega
          subst hji
          exact absurd ⟨h3, h4⟩ hd
  | succ f ih =>
      by_cases hd : (obs i).1 = 0 ∧ (obs i).2 = false
      · simp only [waitUntilDrained, if_pos hd]
        constructor
        · intro _
          exact ⟨i, Nat.le_refl i, by omega, hd.1, hd.2⟩
        · intro _
          trivial
      · simp only [waitUntilDrained, if_neg hd]
        rw [ih (i + 1)]
        constructor
        · rintro ⟨j, h1, h2, h3, h4⟩
          exact ⟨j, by omega, by omega, h3, h4⟩
        · rintro ⟨j, h1, h2, h3, h4⟩
          have hne : j ≠ i := fun he => hd ⟨he ▸ h3, he ▸ h4⟩
          exact ⟨j, by omega, by omega, h3, h4⟩

/-- C7: the completion waiter returns success if and only if some poll
within the timeout budget observes the named target with an empty
queue and a cleared busy flag.  In particular it never returns success
while the queue is non-empty or the busy flag is true (success requires
such an observation), and when every poll up to the budget sees a
non-drained target it returns the timeout outcome regardless of
partial progress. -/
theorem c7_wait_drained_iff (obs : Nat → Nat × Bool) (fuel : Nat) :
    waitUntilDrained obs 0 fuel = DrainResult.drained ↔
      ∃ j, j ≤ fuel ∧ (obs j).1 = 0 ∧ (obs j).2 = false := by
  rw [waitUntilDrained_drained_iff]
  constructor
  · rintro ⟨j, _, h2, h3, h4⟩
    exact ⟨j, by omega, h3, h4⟩
  · rintro ⟨j, h2, h3, h4⟩
    exact ⟨j, Nat.zero_le j, by omega, h3, h4⟩

/-- C6 counterexample: registering a name that is already registered
raises no error at all (the call returns an instance), and the
previously registered instance is not left in the registry — the entry
is replaced by the fresh instance, whose result log is empty. -/
theorem c6_counterexample :
    ¬ (lookupBrowser (create_browser mgrC6 "a" 5 .externalError).1.browsers "a" =
        some bOldC6) ∧
    lookupBrowser (create_browser mgrC6 "a" 5 .externalError).1.browsers "a" =
      some (create_browser mgrC6 "a" 5 .externalError).2 ∧
    (create_browser mgrC6 "a" 5 .externalError).2.results = [] := by
  refine ⟨?_, rfl, rfl⟩
  decide

/-- C6 (amended): registering a target under a name that is already
registered does not fail; the fresh instance (empty queue, empty
result log) replaces the previous instance in the registry, keeping
its position (the key list is unchanged). -/
theorem c6_register_overwrites (m : MultiBoxManager) (name : String)
    (now : Nat) (ph : AttachPhase) (bOld : BrowserInstance)
    (h : lookupBrowser m.browsers name = some bOld) :
    lookupBrowser (create_browser m name now ph).1.browsers name =
      some (create_browser m name now ph).2 ∧
    (create_browser m name now ph).2.task_queue = [] ∧
    (create_browser m name now ph).2.results = [] ∧
    ((create_browser m name now ph).1.browsers.map Prod.fst) =
      m.browsers.map Prod.fst := by
  cases ph with
  | windowFound w =>
      exact ⟨lookupBrowser_dictInsert_self m.browsers name _, rfl, rfl,
             dictInsert_map_fst m.browsers name _ bOld h⟩
  | noWindowFound =>
      exact ⟨lookupBrowser_dictInsert_self m.browsers name _, rfl, rfl,
             dictInsert_map_fst m.browsers name _ bOld h⟩
  | externalError =>
      exact ⟨lookupBrowser_dictInsert_self m.browsers name _, rfl, rfl,
             dictInsert_map_fst m.browsers name _ bOld h⟩

/-- Witness for C6: the amended statement evaluated on the concrete
registry that already holds `a`. -/
theorem c6_register_overwrites_witness :
    lookupBrowser (create_browser mgrC6 "a" 5 .externalError).1.browsers "a" =
      some (create_browser mgrC6 "a" 5 .externalError).2 ∧
    (create_browser mgrC6 "a" 5 .externalError).2.task_queue = [] ∧
    (create_browser mgrC6 "a" 5 .externalError).2.results = [] ∧
    ((create_browser mgrC6 "a" 5 .externalError).1.browsers.map Prod.fst) =
      mgrC6.browsers.map Prod.fst :=
  c6_register_overwrites mgrC6 "a" 5 .externalError bOldC6 rfl

/-- C9: enqueue succeeds exactly when the name is registered; on
success it appends the task to the tail of the named queue of the
target, leaves every other registry entry, the key order and the
running flag unchanged — and this holds for every manager state, in
particular whatever the busy flag of the target is, so enqueueing
never inspects busy state; on an unregistered name it raises the
ValueError and (being pure before the raise) modifies nothing. -/
theorem c9_enqueue_contract (m : MultiBoxManager) (name task_type : String)
    (task_args : Args) :
    ((queue_task m name task_type task_args).isOk =
       (lookupBrowser m.browsers name).isSome) ∧
    (∀ b, lookupBrowser m.browsers name = some b →
       ∃ m2, queue_task m name task_type task_args = Except.ok m2 ∧
         lookupBrowser m2.browsers name =
           some { b with task_queue := b.task_queue ++ [(task_type, task_args)] } ∧
         (∀ o, o ≠ name → lookupBrowser m2.browsers o = lookupBrowser m.browsers o) ∧
         m2.browsers.map Prod.fst = m.browsers.map Prod.fst ∧
         m2.running = m.running) ∧
    (lookupBrowser m.browsers name = none →
       queue_task m name task_type task_args =
         Except.error (PyError.valueError "Browser not found")) := by
  refine ⟨?_, ?_, ?_⟩
  · cases hl : lookupBrowser m.browsers name <;> simp [queue_task, hl, Except.isOk, Except.toBool]
  · intro b hl
    have hok : queue_task m name task_type task_args = Except.ok ⟨updateBrowser name (fun b0 => { b0 with task_queue := b0.task_queue ++ [(task_type, task_args)] }) m.browsers, m.running⟩ := by
      simp [queue_task, hl]
    refine ⟨_, hok, ?_, ?_, ?_, rfl⟩
    · rw [lookupBrowser_updateBrowser_self, hl]
      rfl
    · intro o ho
      exact lookupBrowser_updateBrowser_ne m.browsers name o _ ho
    · exact updateBrowser_map_fst m.browsers name _
  · intro hl
    simp [queue_task, hl]

/-- Witness for C9: both branches evaluated concretely — appending to
the registered target `a`, and the error on the unregistered `zz`. -/
theorem c9_enqueue_contract_witness :
    (∃ m2, queue_task mgrC1 "a" "see" [] = Except.ok m2 ∧
       lookupBrowser m2.browsers "a" =
         some { demoBrowser "a" [taskSee, taskSee] with task_queue := (demoBrowser "a" [taskSee, taskSee]).task_queue ++ [("see", [])] } ∧
       (∀ o, o ≠ "a" → lookupBrowser m2.browsers o = lookupBrowser mgrC1.browsers o) ∧
       m2.browsers.map Prod.fst = mgrC1.browsers.map Prod.fst ∧
       m2.running = mgrC1.running) ∧
    queue_task mgrC6 "zz" "see" [] = Except.error (PyError.valueError "Browser not found") :=
  ⟨(c9_enqueue_contract mgrC1 "a" "see" []).2.1 (demoBrowser "a" [taskSee, taskSee]) rfl,
   (c9_enqueue_contract mgrC6 "zz" "see" []).2.2 rfl⟩

/-- C10: registering a target never propagates an attach failure to the
caller.  In every attach outcome the fresh instance is stored in the
registry under its name and returned; on the failure paths (an SDK
exception, or no window found) the returned and stored instance has no
window attached and is idle; focusing such an instance later raises
inside the dispatcher (swallowed there as well); and the dispatcher
scan will still select it once it has queued work. -/
theorem c10_create_browser_swallows_attach_failure (m : MultiBoxManager)
    (name : String) (now : Nat) :
    (∀ ph, lookupBrowser (create_browser m name now ph).1.browsers name =
        some (create_browser m name now ph).2) ∧
    (create_browser m name now .externalError).2.window_info = none ∧
    (create_browser m name now .noWindowFound).2.window_info = none ∧
    (create_browser m name now .externalError).2.is_busy = false ∧
    (∀ tt ext, runFocusExec (create_browser m name now .externalError).2 tt ext =
        .focusFailure) ∧
    (∀ ts : List Task, ts ≠ [] →
      scanIdx [(name, { (create_browser m name now .externalError).2 with task_queue := ts })] = some 0) := by
  refine ⟨?_, rfl, rfl, rfl, ?_, ?_⟩
  · intro ph
    cases ph <;> exact lookupBrowser_dictInsert_self m.browsers name _
  · intro tt ext
    rfl
  · intro ts hts
    simp [scanIdx, create_browser, hts]

/-- Witness for C10: the selectability conjunct discharged on a
concrete non-empty queue. -/
theorem c10_create_browser_swallows_attach_failure_witness :
    scanIdx [("x", { (create_browser mgrC6 "x" 0 .externalError).2 with task_queue := [taskSee] })] = some 0 :=
  (c10_create_browser_swallows_attach_failure mgrC6 "x" 0).2.2.2.2.2 [taskSee] (by decide)

/-- C1 counterexample: one target whose first queued task fails in
execution.  After the failing cycle completes (two machine steps) the
result log of the target is empty — not one failed record, as the
claim requires — while the task is indeed gone from the queue, the
busy flag is clear, and the next queued task still runs (after two
more steps the log holds exactly the one success record of the second
task). -/
theorem c1_counterexample :
    resultsAt (runLoop schedC1 (startState mgrC1) 2) 0 = [] ∧
    ¬ (resultsAt (runLoop schedC1 (startState mgrC1) 2) 0).length = 1 ∧
    queueAt (runLoop schedC1 (startState mgrC1) 2) 0 = [taskSee] ∧
    busyAt (runLoop schedC1 (startState mgrC1) 2) 0 = false ∧
    (resultsAt (runLoop schedC1 (startState mgrC1) 4) 0).map ResultRecord.task = [taskSee] := by
  decide

/-- C1 (amended): when the focus-switch or execution of the popped task
raises, the completing step appends NO Result Record to the log of the
target (the code only prints the error), leaves the queue of the
target exactly as it was after the pop (the failed task is not
requeued), clears the busy flag, leaves every other target and the
running flag untouched, and returns the loop to scanning — so
subsequent queued tasks of the same target keep being scheduled. -/
theorem c1_failure_no_record_not_requeued (sched : Nat → ExecSpec)
    (s : LoopState) (i : Nat) (n tt : String) (ta : Args) (out : TaskOutcome)
    (n2 : String) (b : BrowserInstance)
    (hp : s.phase = Phase.executing i n tt ta 0 out)
    (hout : out = TaskOutcome.focusFailure ∨ out = TaskOutcome.execFailure)
    (hb : s.mgr.browsers[i]? = some (n2, b)) :
    resultsAt (loopStep sched s) i = b.results ∧
    queueAt (loopStep sched s) i = b.task_queue ∧
    busyAt (loopStep sched s) i = false ∧
    (loopStep sched s).phase = Phase.scanning ∧
    (loopStep sched s).mgr.running = s.mgr.running ∧
    (∀ j, j ≠ i → (loopStep sched s).mgr.browsers[j]? = s.mgr.browsers[j]?) := by
  obtain ⟨hbs, hrun, hph2, hclk, hexe⟩ :=
    loopStep_finish_failure sched s i n tt ta out n2 b hp hout hb
  have hlt : i < s.mgr.browsers.length := getElem?_lt _ _ _ hb
  refine ⟨?_, ?_, ?_, hph2, hrun, ?_⟩
  · simp [resultsAt, hbs, List.getElem?_set_self hlt]
  · simp [queueAt, hbs, List.getElem?_set_self hlt]
  · simp [busyAt, hbs, List.getElem?_set_self hlt]
  · intro j hj
    rw [hbs, List.getElem?_set_ne (Ne.symm hj)]

/-- Witness for C1: the amended statement evaluated on the concrete
mid-flight failing state. -/
theorem c1_failure_no_record_not_requeued_witness :
    resultsAt (loopStep schedC1 stateC1) 0 = bC1.results ∧
    queueAt (loopStep schedC1 stateC1) 0 = bC1.task_queue ∧
    busyAt (loopStep schedC1 stateC1) 0 = false ∧
    (loopStep schedC1 stateC1).phase = Phase.scanning ∧
    (loopStep schedC1 stateC1).mgr.running = stateC1.mgr.running ∧
    (∀ j, j ≠ 0 → (loopStep schedC1 stateC1).mgr.browsers[j]? = stateC1.mgr.browsers[j]?) :=
  c1_failure_no_record_not_requeued schedC1 stateC1 0 "a" "see" []
    TaskOutcome.execFailure "a" bC1 rfl (Or.inr rfl) rfl

/-- C8 counterexample: one target, two immediately succeeding tasks.
The second task is popped in step three, when the clock reads 2, but
during its execution the last-active stamp of the target still reads
1 (the completion time of the first task): last-active is not updated
at selection time as the claim requires. -/
theorem c8_counterexample :
    (runLoop schedC8 (startState mgrC8) 2).clock = 2 ∧
    (runLoop schedC8 (startState mgrC8) 3).phase =
      Phase.executing 0 "a" "see" [] 0 (TaskOutcome.success 5) ∧
    lastActiveAt (runLoop schedC8 (startState mgrC8) 3) 0 = 1 ∧
    ¬ lastActiveAt (runLoop schedC8 (startState mgrC8) 3) 0 =
        (runLoop schedC8 (startState mgrC8) 2).clock := by
  decide

/-- C8 (amended): the last-active timestamp is never written at
selection time nor while suspended nor on a failing completion — the
selection step, every suspension step and a failing completion leave
every last-active field unchanged; it is written only when an
execution completes successfully, and then it is set to the
completion-time clock (the same reading the result record carries),
with every other target untouched. -/
theorem c8_last_active_on_success_completion (sched : Nat → ExecSpec) (s : LoopState) :
    (s.phase = Phase.scanning → ∀ j, lastActiveAt (loopStep sched s) j = lastActiveAt s j) ∧
    (∀ (i : Nat) (n tt : String) (ta : Args) (l : Nat) (out : TaskOutcome),
       s.phase = Phase.executing i n tt ta (l + 1) out →
       ∀ j, lastActiveAt (loopStep sched s) j = lastActiveAt s j) ∧
    (∀ (i : Nat) (n tt : String) (ta : Args) (out : TaskOutcome) (n2 : String) (b : BrowserInstance),
       s.phase = Phase.executing i n tt ta 0 out →
       (out = TaskOutcome.focusFailure ∨ out = TaskOutcome.execFailure) →
       s.mgr.browsers[i]? = some (n2, b) →
       ∀ j, lastActiveAt (loopStep sched s) j = lastActiveAt s j) ∧
    (∀ (i : Nat) (n tt : String) (ta : Args) (v : Nat) (n2 : String) (b : BrowserInstance),
       s.phase = Phase.executing i n tt ta 0 (TaskOutcome.success v) →
       s.mgr.browsers[i]? = some (n2, b) →
       lastActiveAt (loopStep sched s) i = s.clock ∧
       ∀ j, j ≠ i → lastActiveAt (loopStep sched s) j = lastActiveAt s j) := by
  refine ⟨?_, ?_, ?_, ?_⟩
  · intro hph j
    cases hr : s.mgr.running with
    | false => rw [loopStep_halted sched s hph hr]
    | true =>
        cases hsi : scanIdx s.mgr.browsers with
        | none =>
            rw [loopStep_idle sched s hph hr hsi]
            rfl
        | some i =>
            obtain ⟨p, hp, hbusy, hqne, hfirst⟩ := scanIdx_some _ _ hsi
            obtain ⟨n, b⟩ := p
            cases hq2 : b.task_queue with
            | nil => exact absurd hq2 hqne
            | cons t rest =>
                obtain ⟨tt, ta⟩ := t
                obtain ⟨hbs, _, _, _, _⟩ :=
                  loopStep_select sched s i n b tt ta rest hph hr hsi hp hq2
                have hlt : i < s.mgr.browsers.length := getElem?_lt _ _ _ hp
                by_cases hij : j = i
                · subst hij
                  simp [lastActiveAt, hbs, List.getElem?_set_self hlt, hp]
                · simp [lastActiveAt, hbs, List.getElem?_set_ne (Ne.symm hij)]
  · intro i n tt ta l out hph j
    rw [loopStep_tick sched s i n tt ta l out hph]
    rfl
  · intro i n tt ta out n2 b hph hout hb j
    obtain ⟨hbs, _, _, _, _⟩ :=
      loopStep_finish_failure sched s i n tt ta out n2 b hph hout hb
    have hlt : i < s.mgr.browsers.length := getElem?_lt _ _ _ hb
    by_cases hij : j = i
    · subst hij
      simp [lastActiveAt, hbs, List.getElem?_set_self hlt, hb]
    · simp [lastActiveAt, hbs, List.getElem?_set_ne (Ne.symm hij)]
  · intro i n tt ta v n2 b hph hb
    obtain ⟨hbs, _, _, _, _⟩ :=
      loopStep_finish_success sched s i n tt ta v n2 b hph hb
    have hlt : i < s.mgr.browsers.length := getElem?_lt _ _ _ hb
    refine ⟨?_, ?_⟩
    · simp [lastActiveAt, hbs, List.getElem?_set_self hlt]
    · intro j hj
      simp [lastActiveAt, hbs, List.getElem?_set_ne (Ne.symm hj)]

/-- Witness for C8: the success-completion conjunct evaluated on the
concrete mid-flight state. -/
theorem c8_last_active_on_success_completion_witness :
    lastActiveAt (loopStep schedC8 stateC8) 0 = stateC8.clock ∧
    ∀ j, j ≠ 0 → lastActiveAt (loopStep schedC8 stateC8) j = lastActiveAt stateC8 j :=
  (c8_last_active_on_success_completion schedC8 stateC8).2.2.2 0 "a" "see" [] 5 "a" bC8 rfl rfl

/-- C2 is violated by the code: `process_queues` awaits each
focus-and-execute inline, so while the second task of `A` stalls the
loop cannot advance `B`.  In the spec scenario (`A` registered first
with three tasks, `B` with one, the second `A` task stalling five
scheduler steps) every task of `A` completes before the single task of
`B` even starts: the record timestamps are 1, 8, 10 for `A` and 12 for
`B`, so the `B` record is strictly later than the third `A` record —
the opposite of the claimed assertion that `B` executes before the
third `A` task. -/
theorem c2_serialized_dispatch_run :
    (resultsAt (runLoop schedC2 (startState mgrC2) 13) 0).map ResultRecord.timestamp = [1, 8, 10] ∧
    (resultsAt (runLoop schedC2 (startState mgrC2) 13) 1).map ResultRecord.timestamp = [12] ∧
    (∀ r1, r1 ∈ resultsAt (runLoop schedC2 (startState mgrC2) 13) 0 →
       ∀ r2, r2 ∈ resultsAt (runLoop schedC2 (startState mgrC2) 13) 1 →
         r1.timestamp < r2.timestamp) := by
  decide

/-- C3: for a single target (position `j`) holding any enqueued
sequence and an empty result log, after any number of dispatcher steps
under any external behaviour: the recorded tasks are an
order-preserving selection (sublist) of the enqueued sequence — so
result records appear in enqueue order — the pending queue is always a
suffix of the enqueued sequence (tasks leave only from the front and
nothing is ever re-entered), and each further step only keeps or
shortens that queue from the front (consumed exactly once). -/
theorem c3_fifo_order (sched : Nat → ExecSpec) (m : MultiBoxManager)
    (j : Nat) (p : String × BrowserInstance) (k : Nat)
    (hj : m.browsers[j]? = some p) (hres : p.2.results = []) :
    (resultsAt (runLoop sched (startState m) k) j).map ResultRecord.task <+ p.2.task_queue ∧
    queueAt (runLoop sched (startState m) k) j <:+ p.2.task_queue ∧
    queueAt (runLoop sched (startState m) (k + 1)) j <:+ queueAt (runLoop sched (startState m) k) j := by
  have hstart : FifoInv p.2.task_queue j (startState m) := by
    intro q hq
    have hpq : q = p := Option.some.inj (hq.symm.trans hj)
    subst hpq
    refine ⟨[], ?_, by simp [hres]⟩
    simp [inflightAt, startState]
  have hinv := fifoInv_runLoop sched (startState m) p.2.task_queue j k hstart
  have hltj : j < m.browsers.length := getElem?_lt _ _ _ hj
  have hlen : ∀ k2, (runLoop sched (startState m) k2).mgr.browsers.length = m.browsers.length := by
    intro k2
    induction k2 with
    | zero => rfl
    | succ k3 ih =>
        show (loopStep sched (runLoop sched (startState m) k3)).mgr.browsers.length = _
        rw [length_loopStep]
        exact ih
  have hlt2 : j < (runLoop sched (startState m) k).mgr.browsers.length := by
    rw [hlen k]
    exact hltj
  have hq2 : (runLoop sched (startState m) k).mgr.browsers[j]? =
      some ((runLoop sched (startState m) k).mgr.browsers[j]) :=
    List.getElem?_eq_getElem hlt2
  obtain ⟨done, hQ, hsub⟩ := hinv _ hq2
  have hdone : done <+ p.2.task_queue := by
    rw [← hQ]
    exact List.sublist_append_left done _
  refine ⟨?_, ?_, queueAt_loopStep_suffix sched (runLoop sched (startState m) k) j⟩
  · have hre : resultsAt (runLoop sched (startState m) k) j =
        ((runLoop sched (startState m) k).mgr.browsers[j]).2.results := by
      simp [resultsAt, hq2]
    rw [hre]
    exact hsub.trans hdone
  · have hqe : queueAt (runLoop sched (startState m) k) j =
        ((runLoop sched (startState m) k).mgr.browsers[j]).2.task_queue := by
      simp [queueAt, hq2]
    rw [hqe]
    refine ⟨done ++ inflightAt j (runLoop sched (startState m) k).phase, ?_⟩
    rw [List.append_assoc]
    exact hQ

/-- Witness for C3: the FIFO statement evaluated on the concrete
two-target scenario after six steps. -/
theorem c3_fifo_order_witness :
    (resultsAt (runLoop schedC2 (startState mgrC2) 6) 0).map ResultRecord.task <+ (demoBrowser "A" [taskSee, taskSee, taskSee]).task_queue ∧
    queueAt (runLoop schedC2 (startState mgrC2) 6) 0 <:+ (demoBrowser "A" [taskSee, taskSee, taskSee]).task_queue ∧
    queueAt (runLoop schedC2 (startState mgrC2) 7) 0 <:+ queueAt (runLoop schedC2 (startState mgrC2) 6) 0 :=
  c3_fifo_order schedC2 mgrC2 0 ("A", demoBrowser "A" [taskSee, taskSee, taskSee]) 6 rfl rfl

/-- C4: a successful scan returns the position of a browser that is
idle with a non-empty queue and every browser registered before it is
busy or empty (first in registration order); the scan returns nothing
exactly when every registered browser is busy or has an empty queue;
and in that case the dispatcher step only advances the clock by the
fixed scheduling quantum (the `asyncio.sleep(0.1)` of the code) before
the next scan. -/
theorem c4_scan_first_idle_nonempty (sched : Nat → ExecSpec) (s : LoopState) :
    (∀ i, scanIdx s.mgr.browsers = some i →
       ∃ p, s.mgr.browsers[i]? = some p ∧ p.2.is_busy = false ∧ p.2.task_queue ≠ [] ∧
         ∀ j, j < i → ∀ q, s.mgr.browsers[j]? = some q →
           (q.2.is_busy = true ∨ q.2.task_queue = [])) ∧
    (scanIdx s.mgr.browsers = none ↔
       ∀ p ∈ s.mgr.browsers, (p.2.is_busy = true ∨ p.2.task_queue = [])) ∧
    (s.phase = Phase.scanning → s.mgr.running = true → scanIdx s.mgr.browsers = none →
       loopStep sched s = { s with clock := s.clock + 1 }) :=
  ⟨fun i h => scanIdx_some s.mgr.browsers i h,
   scanIdx_none_iff s.mgr.browsers,
   fun h1 h2 h3 => loopStep_idle sched s h1 h2 h3⟩

/-- Witness for C4: the selection conjunct on the concrete two-target
state (first target selected) and the idle-yield conjunct on a state
whose only queue is empty. -/
theorem c4_scan_first_idle_nonempty_witness :
    (∃ p, (startState mgrC2).mgr.browsers[0]? = some p ∧ p.2.is_busy = false ∧ p.2.task_queue ≠ [] ∧
       ∀ j, j < 0 → ∀ q, (startState mgrC2).mgr.browsers[j]? = some q →
         (q.2.is_busy = true ∨ q.2.task_queue = [])) ∧
    loopStep schedC8 (startState mgrIdle) = { startState mgrIdle with clock := (startState mgrIdle).clock + 1 } :=
  ⟨(c4_scan_first_idle_nonempty schedC8 (startState mgrC2)).1 0 rfl,
   (c4_scan_first_idle_nonempty schedC8 (startState mgrIdle)).2.2 rfl rfl rfl⟩

/-- C5: starting from an all-idle registry, at every reachable machine
state the busy invariant holds — while scanning no browser is busy,
and while one execution is in flight the selected browser (and only
it) has its busy flag true for the whole duration, so at most one
execution is ever in flight per target; moreover a scan never selects
a busy browser, and the busy flag is cleared exactly by the step in
which the in-flight execution completes, which also returns the loop
to scanning. -/
theorem c5_busy_mutual_exclusion (sched : Nat → ExecSpec) (m : MultiBoxManager) (k : Nat)
    (hidle : ∀ p ∈ m.browsers, p.2.is_busy = false) :
    BusyInv (runLoop sched (startState m) k) ∧
    (∀ (l : List (String × BrowserInstance)) (i : Nat), scanIdx l = some i →
       ∃ p, l[i]? = some p ∧ p.2.is_busy = false) ∧
    (∀ (s : LoopState) (i : Nat) (n tt : String) (ta : Args) (out : TaskOutcome)
       (n2 : String) (b : BrowserInstance),
       s.phase = Phase.executing i n tt ta 0 out →
       s.mgr.browsers[i]? = some (n2, b) →
       busyAt (loopStep sched s) i = false ∧ (loopStep sched s).phase = Phase.scanning) := by
  refine ⟨?_, ?_, ?_⟩
  · apply busyInv_runLoop
    unfold BusyInv
    constructor
    · intro _ j p hp
      exact hidle p (List.getElem?_mem hp)
    · intro i n tt ta l out hex
      exact absurd hex (fun hc => Phase.noConfusion hc)
  · intro l i h
    obtain ⟨p, hp, hb, _, _⟩ := scanIdx_some l i h
    exact ⟨p, hp, hb⟩
  · intro s i n tt ta out n2 b hph hb4
    have hlt : i < s.mgr.browsers.length := getElem?_lt _ _ _ hb4
    cases out with
    | success v =>
        obtain ⟨hbs, _, hph2, _, _⟩ :=
          loopStep_finish_success sched s i n tt ta v n2 b hph hb4
        exact ⟨by simp [busyAt, hbs, List.getElem?_set_self hlt], hph2⟩
    | focusFailure =>
        obtain ⟨hbs, _, hph2, _, _⟩ :=
          loopStep_finish_failure sched s i n tt ta _ n2 b hph (Or.inl rfl) hb4
        exact ⟨by simp [busyAt, hbs, List.getElem?_set_self hlt], hph2⟩
    | execFailure =>
        obtain ⟨hbs, _, hph2, _, _⟩ :=
          loopStep_finish_failure sched s i n tt ta _ n2 b hph (Or.inr rfl) hb4
        exact ⟨by simp [busyAt, hbs, List.getElem?_set_self hlt], hph2⟩

/-- Witness for C5: the invariant statement evaluated on the concrete
two-target scenario after three steps (mid-flight in the stalled
second task of `A`). -/
theorem c5_busy_mutual_exclusion_witness :
    BusyInv (runLoop schedC2 (startState mgrC2) 3) ∧
    (∀ (l : List (String × BrowserInstance)) (i : Nat), scanIdx l = some i →
       ∃ p, l[i]? = some p ∧ p.2.is_busy = false) ∧
    (∀ (s : LoopState) (i : Nat) (n tt : String) (ta : Args) (out : TaskOutcome)
       (n2 : String) (b : BrowserInstance),
       s.phase = Phase.executing i n tt ta 0 out →
       s.mgr.browsers[i]? = some (n2, b) →
       busyAt (loopStep schedC2 s) i = false ∧ (loopStep schedC2 s).phase = Phase.scanning) :=
  c5_busy_mutual_exclusion schedC2 mgrC2 3 (by decide)

end Multibox
